import Mathlib

/-!
Shallow embedding of the command-dispatch and diff-resolution layer of the
vscode-hg extension (`src/commands.ts`), with theorems checking the
natural-language specification against it.

Conventions:
* JavaScript `undefined`-or-value is `Option`.
* Strings that JavaScript treats as falsy when empty are plain `String`s,
  with `""` playing the falsy role (`!s` in JS ⟷ `s = ""` here).
* Asynchronous handlers are modelled by their resolved outcome: a list of
  observable effects plus an optional error (`none` = fulfilled).
-/

namespace VscodeHg

/-- Model of `vscode.Uri` restricted to the fields this file touches:
`scheme`, the file-system path, and the `query` string.  `uri.with {...}`
is field update. -/
structure Uri where
  scheme : String
  fsPath : String
  query : String
  deriving DecidableEq, Repr

/-- Modelled from the spec: the closed status taxonomy of a changed resource
(`Status` lives in `model.ts`, which is not among the sources; §4.2 gives the
closed set ADDED, DELETED, MODIFIED, UNTRACKED, IGNORED, CLEAN). -/
inductive Status where
  | ADDED
  | DELETED
  | MODIFIED
  | UNTRACKED
  | IGNORED
  | CLEAN
  deriving DecidableEq, Repr

/-- Model of `Resource` (from `model.ts`, not among the sources) restricted to
the fields `commands.ts` reads: the current uri `resourceUri`, the pre-change
uri `original`, and the `status`. -/
structure Resource where
  resourceUri : Uri
  original : Uri
  status : Status
  deriving DecidableEq, Repr

/-- Embedding of `uri.with({ scheme: 'hg', query: '.' })`: the read-only
historical view of a file keyed by its path and the revision token `"."`. -/
def withHgQueryDot (u : Uri) : Uri :=
  { u with scheme := "hg", query := "." }

/-- Embedding of Node's posix `path.basename`: the last nonempty
slash-separated component (`"/"` when the path is only slashes). -/
def basename (p : String) : String :=
  match ((p.split (fun c => c = '/')).filter (fun s => s ≠ "")).getLast? with
  | some s => s
  | none => if p.toList.contains '/' then "/" else p

/-- Embedding of `CommandCenter.getLeftResource`: `ADDED`, `UNTRACKED` and
`IGNORED` yield no left side; every other status yields the historical view of
`resource.original`. -/
def getLeftResource (r : Resource) : Option Uri :=
  match r.status with
  | Status.ADDED => none
  | Status.UNTRACKED => none
  | Status.IGNORED => none
  | _ => some (withHgQueryDot r.original)

/-- Embedding of `CommandCenter.getRightResource`: `DELETED` yields the
historical view of `resource.resourceUri`; `MODIFIED`, `UNTRACKED`, `IGNORED`
and `ADDED` yield `resource.resourceUri` itself; the switch has no default, so
any other status yields `undefined`. -/
def getRightResource (r : Resource) : Option Uri :=
  match r.status with
  | Status.DELETED => some (withHgQueryDot r.resourceUri)
  | Status.MODIFIED => some r.resourceUri
  | Status.UNTRACKED => some r.resourceUri
  | Status.IGNORED => some r.resourceUri
  | Status.ADDED => some r.resourceUri
  | _ => none

/-- Embedding of `CommandCenter.getTitle`: only `MODIFIED` carries a title,
`"<basename> (Working Folder)"`. -/
def getTitle (r : Resource) : String :=
  match r.status with
  | Status.MODIFIED => basename r.resourceUri.fsPath ++ " (Working Folder)"
  | _ => ""

/-- Observable effects of the command layer: user-facing messages and
dialogs, telemetry events, `console.error` diagnostics, the output channel,
editor views, and engine calls. -/
inductive Effect where
  | infoMessage (s : String)
  | warnMessage (s : String)
  | errorDialog (s : String)
  | telemetryEvent (commandId : String)
  | consoleError
  | outputShown
  | openView (u : Uri)
  | diffView (left right : Uri) (title : String)
  | engineCommit (message : String) (all : Bool)
  | engineBranch (name : String)
  deriving DecidableEq, Repr

/-- Embedding of `CommandCenter._openResource`: no right side is a contract
violation reported via `console.error` with no view; no left side opens the
right side in a single pane (`vscode.open`); otherwise a two-pane diff
(`vscode.diff`) titled by `getTitle`. -/
def openResourceEffects (r : Resource) : List Effect :=
  match getRightResource r with
  | none => [Effect.consoleError]
  | some right =>
    match getLeftResource r with
    | none => [Effect.openView right]
    | some left => [Effect.diffView left right (getTitle r)]

/-- Errors raised by engine operations, as the dispatch boundary sees them:
an optional machine-readable `hgErrorCode`, raw diagnostic `stderr` and
`message` texts (with `""` for the absent/falsy case), and the `String(err)`
rendering used as a last resort. -/
structure HgError where
  hgErrorCode : Option String
  stderr : String
  message : String
  asString : String
  deriving DecidableEq, Repr

/-- Characters matched by the JavaScript regex class `\s`. -/
def isJsWs (c : Char) : Bool :=
  c == ' ' || c == '\t' || c == '\n' || c == '\r' ||
  c.val == 0x000b || c.val == 0x000c || c.val == 0x00a0 || c.val == 0x1680 ||
  (decide (0x2000 ≤ c.val ∧ c.val ≤ 0x200a)) ||
  c.val == 0x2028 || c.val == 0x2029 ||
  c.val == 0x202f || c.val == 0x205f || c.val == 0x3000 || c.val == 0xfeff

/-- Line terminators after which a multiline `^` anchor matches in
JavaScript. -/
def isLineTerm (c : Char) : Bool :=
  c == '\n' || c == '\r' || c.val == 0x2028 || c.val == 0x2029

/-- Case-insensitive prefix test; the pattern is given lowercase. -/
def startsWithCI : List Char → List Char → Bool
  | [], _ => true
  | _ :: _, [] => false
  | p :: ps, c :: cs => p == c.toLower && startsWithCI ps cs

/-- Embedding of `.replace(/^error: /mi, '')`: delete the first occurrence of
the case-insensitive text `error: ` found at the start of a line.  The flag
records whether the current position is a line start. -/
def stripErrorLabelGo (atLineStart : Bool) : List Char → List Char
  | [] => []
  | c :: cs =>
    if atLineStart && startsWithCI (("error: ").toList) (c :: cs) then
      (c :: cs).drop 7
    else
      c :: stripErrorLabelGo (isLineTerm c) cs

/-- Suffix of the list starting at its first line terminator (used for the
`.*$` part of a line-deleting regex, since `.` stops before terminators). -/
def dropThroughLine : List Char → List Char
  | [] => []
  | c :: cs => if isLineTerm c then c :: cs else dropThroughLine cs

/-- Embedding of `.replace(/^> husky.*$/mi, '')`: delete the first line that
starts with the case-insensitive text `> husky`, keeping its terminator. -/
def stripHuskyGo (atLineStart : Bool) : List Char → List Char
  | [] => []
  | c :: cs =>
    if atLineStart && startsWithCI (("> husky").toList) (c :: cs) then
      dropThroughLine (c :: cs)
    else
      c :: stripHuskyGo (isLineTerm c) cs

/-- Embedding of `split(/[\r\n]/)`: split at every CR or LF character, with
`acc` accumulating the current (reversed) segment. -/
def splitLinesGo (acc : List Char) : List Char → List String
  | [] => [String.mk acc.reverse]
  | c :: cs =>
    if c == '\r' || c == '\n' then String.mk acc.reverse :: splitLinesGo [] cs
    else splitLinesGo (c :: acc) cs

/-- Embedding of the hint computation in `createCommand`'s catch handler:
strip a leading `error: ` label and a husky line, split on `[\r\n]`, drop
empty lines, and take the first line (`undefined`, i.e. `none`, when no line
remains). -/
def hgHint (text : String) : Option String :=
  let t1 := stripErrorLabelGo true text.toList
  let t2 := stripHuskyGo true t1
  ((splitLinesGo [] t2).filter (fun line => line ≠ "")).head?

/-- Embedding of `err.stderr || err.message || String(err)` (JS falsy
fallthrough on empty strings). -/
def rawDiagnostic (e : HgError) : String :=
  if e.stderr ≠ "" then e.stderr
  else if e.message ≠ "" then e.message
  else e.asString

/-- Embedding of the message classification in `createCommand`'s catch
handler: a recognized `DirtyWorkTree` code gets a specific message; otherwise
the first diagnostic hint line yields a detailed message, and the fallback is
the generic localized text. -/
def commandErrorMessage (e : HgError) : String :=
  match e.hgErrorCode with
  | some ("DirtyWorkTree") => "Please clean your repository working tree before checkout."
  | _ =>
    match hgHint (rawDiagnostic e) with
    | some h => ("Hg: ") ++ h
    | none => "Hg error"

/-- Embedding of the body of `createCommand`'s catch handler: an empty
message is only logged via `console.error`; otherwise an error dialog is
shown, and choosing its button opens the output channel. -/
def handleCommandError (e : HgError) (userOpensLog : Bool) : List Effect :=
  let message := commandErrorMessage e
  if message = "" then [Effect.consoleError]
  else Effect.errorDialog message :: (if userOpensLog then [Effect.outputShown] else [])

/-- Embedding of the wrapper produced by `CommandCenter.createCommand`: guard
on a bound model unless `skipModelCheck`, emit one telemetry event, run the
handler (given by its effects and optional rejection), and absorb any
rejection through the catch handler.  The `Except` result is the promise the
wrapper returns to the host. -/
def createCommand (skipModelCheck : Bool) (commandId : String) (modelBound : Bool)
    (handler : List Effect × Option HgError) (userOpensLog : Bool) :
    Except HgError (List Effect) :=
  if !skipModelCheck && !modelBound then
    Except.ok [Effect.infoMessage ("Hg is either disabled or not supported in this workspace")]
  else
    Except.ok (Effect.telemetryEvent commandId ::
      (match handler.2 with
       | none => handler.1
       | some e => handler.1 ++ handleCommandError e userOpensLog))

/-- One row of the decorator-built `Commands` table: a command id and its
`skipModelCheck` flag (`requiresModel` is its negation). -/
structure RegisteredCommand where
  commandId : String
  skipModelCheck : Bool
  deriving DecidableEq, Repr

/-- Embedding of the `Commands` table, in the order the `@command` decorators
run over `CommandCenter`'s body; only `hg.clone` skips the model check. -/
def Commands : List RegisteredCommand :=
  [⟨"hg.refresh", false⟩, ⟨"hg.openResource", false⟩, ⟨"hg.clone", true⟩,
   ⟨"hg.init", false⟩, ⟨"hg.openFile", false⟩, ⟨"hg.openChange", false⟩,
   ⟨"hg.openFileFromUri", false⟩, ⟨"hg.openChangeFromUri", false⟩,
   ⟨"hg.stage", false⟩, ⟨"hg.stageAll", false⟩, ⟨"hg.unstage", false⟩,
   ⟨"hg.unstageAll", false⟩, ⟨"hg.clean", false⟩, ⟨"hg.cleanAll", false⟩,
   ⟨"hg.commit", false⟩, ⟨"hg.commitWithInput", false⟩, ⟨"hg.commitStaged", false⟩,
   ⟨"hg.commitAll", false⟩, ⟨"hg.undoCommit", false⟩, ⟨"hg.update", false⟩,
   ⟨"hg.branch", false⟩, ⟨"hg.pull", false⟩, ⟨"hg.push", false⟩,
   ⟨"hg.pushTo", false⟩, ⟨"hg.showOutput", false⟩]

/-- Number of error dialogs in an effect list. -/
def errorDialogCount (l : List Effect) : Nat :=
  (l.filter (fun eff => match eff with | Effect.errorDialog _ => true | _ => false)).length

/-- Number of `console.error` diagnostic log entries in an effect list. -/
def consoleErrorCount (l : List Effect) : Nat :=
  (l.filter (fun eff => match eff with | Effect.consoleError => true | _ => false)).length

/-- Number of telemetry events in an effect list. -/
def telemetryCount (l : List Effect) : Nat :=
  (l.filter (fun eff => match eff with | Effect.telemetryEvent _ => true | _ => false)).length

/-- Number of opened editor views (single-pane or diff) in an effect list. -/
def viewCount (l : List Effect) : Nat :=
  (l.filter (fun eff =>
    match eff with
    | Effect.openView _ => true
    | Effect.diffView _ _ _ => true
    | _ => false)).length

/-- Number of engine commit calls in an effect list. -/
def engineCommitCount (l : List Effect) : Nat :=
  (l.filter (fun eff => match eff with | Effect.engineCommit _ _ => true | _ => false)).length

/-- Model of the domain-model state read by the commit commands: the working
directory group, plus the staging group (`StagingGroup` lives in `model.ts`,
which is not among the sources; modelled from the spec's §3 resource groups —
`smartCommit` itself never reads it). -/
structure ModelState where
  workingDirectoryGroup : List Resource
  stagingGroup : List Resource
  deriving DecidableEq, Repr

/-- Model of `CommitOptions` restricted to the field `commands.ts` uses. -/
structure CommitOptions where
  all : Bool
  deriving DecidableEq, Repr

/-- Embedding of `CommandCenter.smartCommit`.  The commit message is the
resolved value of `getCommitMessage()` (with `""` for an empty or cancelled
result); the returned flag is the wrapper's boolean result.  The duplicated
`workingDirectoryGroup` test in the no-changes condition is the source's. -/
def smartCommit (m : ModelState) (opts0 : Option CommitOptions) (commitMessage : String) :
    List Effect × Bool :=
  let opts :=
    match opts0 with
    | some o => o
    | none => { all := m.workingDirectoryGroup.length == 0 }
  if (m.workingDirectoryGroup.length == 0 && m.workingDirectoryGroup.length == 0)
      || (!opts.all && m.workingDirectoryGroup.length == 0) then
    ([Effect.infoMessage ("There are no changes to commit.")], false)
  else
    if commitMessage = "" then ([], false)
    else ([Effect.engineCommit commitMessage opts.all], true)

/-- Resolved value of `commitWithAnyInput`'s `getCommitMessage` closure: the
pending input box value when non-empty, otherwise the interactive prompt's
result (`""` when cancelled). -/
def resolvedCommitMessage (inputBoxValue : String) (promptResult : Option String) : String :=
  if inputBoxValue ≠ "" then inputBoxValue else promptResult.getD ""

/-- Embedding of `CommandCenter.commitWithAnyInput`: run `smartCommit` with
the resolved message, then refresh the pending input box from the engine's
commit template only when the message came from the (non-empty) box and the
commit happened.  Returns the effects, `didCommit`, and the final input box
value. -/
def commitWithAnyInput (m : ModelState) (inputBoxValue : String)
    (promptResult : Option String) (commitTemplate : String) (opts0 : Option CommitOptions) :
    List Effect × Bool × String :=
  let message := inputBoxValue
  let r := smartCommit m opts0 (resolvedCommitMessage inputBoxValue promptResult)
  if message ≠ "" ∧ r.2 = true then (r.1, r.2, commitTemplate)
  else (r.1, r.2, inputBoxValue)

/-- First twelve alternatives of the branch-name regex
`^\.|\/\.|\.\.|~|\^|:|\/$|\.lock$|\.lock\/|\\|\*|\s` tried at one position of
the input (`atStart` marks position 0 for the `^` anchor; the `$` anchor is a
test that the rest of the list ends there), returning the matched length.
Alternation is leftmost-first, as in JavaScript. -/
def branchAlt12 (atStart : Bool) (l : List Char) : Option Nat :=
  if atStart && (l.head? == some '.') then some 1
  else if List.isPrefixOf ['/', '.'] l then some 2
  else if List.isPrefixOf ['.', '.'] l then some 2
  else if List.isPrefixOf ['~'] l then some 1
  else if List.isPrefixOf ['^'] l then some 1
  else if List.isPrefixOf [':'] l then some 1
  else if l = ['/'] then some 1
  else if l = ['.', 'l', 'o', 'c', 'k'] then some 5
  else if List.isPrefixOf ['.', 'l', 'o', 'c', 'k', '/'] l then some 6
  else if List.isPrefixOf ['\\'] l then some 1
  else if List.isPrefixOf ['*'] l then some 1
  else if (l.head?.map isJsWs).getD false then some 1
  else none

/-- Thirteenth alternative `^\s*$` of the branch-name regex: at position 0,
greedily match the whole remainder when it is all whitespace. -/
def branchAltWsLine (atStart : Bool) (l : List Char) : Option Nat :=
  if atStart && l.all isJsWs then some l.length else none

/-- Last alternative `\.$` of the branch-name regex: a dot at the very end. -/
def branchAltDotEnd (l : List Char) : Option Nat :=
  if l = ['.'] then some 1 else none

/-- Match attempt of the full branch-name regex at one position, alternatives
in the source's order. -/
def branchMatchAt (atStart : Bool) (l : List Char) : Option Nat :=
  (branchAlt12 atStart l).orElse fun _ =>
    (branchAltWsLine atStart l).orElse fun _ => branchAltDotEnd l

/-- Matcher spelled from the claim's list of forbidden patterns: leading dot,
`/.`, `..`, `~`, `^`, `:`, trailing slash, `.lock` suffix, `.lock/` segment,
backslash, `*`, whitespace, trailing dot — the source's alternatives minus
the `^\s*$` alternative, which the claim does not mention. -/
def claimMatchAt (atStart : Bool) (l : List Char) : Option Nat :=
  (branchAlt12 atStart l).orElse fun _ => branchAltDotEnd l

/-- Driver of a JavaScript global `replace(regex, '-')`: scan left to right,
replacing each leftmost match by one `-` and resuming after it; unmatched
characters are copied.  Fuel bounds the recursion; `length + 1` always
suffices.  An empty match (possible only at the very end) inserts `-` and
stops, as the JS `lastIndex` then moves past the end. -/
def replaceLoop (M : Bool → List Char → Option Nat) : Nat → Bool → List Char → List Char
  | 0, _, l => l
  | Nat.succ fuel, atStart, l =>
    match M atStart l with
    | some n =>
      match l with
      | [] => ['-']
      | _ :: _ => '-' :: replaceLoop M fuel false (l.drop n)
    | none =>
      match l with
      | [] => []
      | c :: cs => c :: replaceLoop M fuel false cs

/-- Embedding of the sanitization in `CommandCenter.branch`:
`result.replace(/^\.|\/\.|\.\.|~|\^|:|\/$|\.lock$|\.lock\/|\\|\*|\s|^\s*$|\.$/g, '-')`. -/
def sanitizeBranchName (s : String) : String :=
  String.mk (replaceLoop branchMatchAt (s.toList.length + 1) true s.toList)

/-- Global replacement by `-` of every occurrence of the claim's forbidden
patterns, spelled from the claim's words. -/
def claimSanitizeBranchName (s : String) : String :=
  String.mk (replaceLoop claimMatchAt (s.toList.length + 1) true s.toList)

/-- Embedding of `CommandCenter.branch`: `undefined` (cancelled) or empty
input returns with no engine call; otherwise the engine's branch operation is
called with the sanitized name. -/
def branch (input : Option String) : List Effect :=
  match input with
  | none => []
  | some result =>
    if result = "" then []
    else [Effect.engineBranch (sanitizeBranchName result)]

/-! Concrete fixtures used by witnesses. -/

/-- Sample file uri. -/
def uriA : Uri := ⟨"file", "/repo/a.txt", ""⟩

/-- Sample modified resource. -/
def resModified : Resource := ⟨uriA, uriA, Status.MODIFIED⟩

/-- Sample deleted resource. -/
def resDeleted : Resource := ⟨uriA, uriA, Status.DELETED⟩

/-- C4: left-reference resolution returns none exactly when the status is
ADDED, UNTRACKED, or IGNORED, and for every other status returns the
historical reference keyed by the resource's original path and revision
token ".". -/
theorem claim4_left_resource_resolution (r : Resource) :
    (getLeftResource r = none ↔
      r.status = Status.ADDED ∨ r.status = Status.UNTRACKED ∨ r.status = Status.IGNORED) ∧
    (r.status ≠ Status.ADDED → r.status ≠ Status.UNTRACKED → r.status ≠ Status.IGNORED →
      getLeftResource r = some (withHgQueryDot r.original)) := by
  obtain ⟨u, o, st⟩ := r
  cases st <;> simp [getLeftResource]

/-- Witness for C4 at a concrete MODIFIED resource. -/
theorem claim4_witness :
    getLeftResource resModified = some (withHgQueryDot resModified.original) :=
  (claim4_left_resource_resolution resModified).2 (by decide) (by decide) (by decide)

/-- C5: a DELETED resource (whose original and current uris agree) has left
and right both equal to the historical reference at revision "." and an empty
title; a MODIFIED resource has the historical reference on the left, the
on-disk uri on the right, and the title "<basename> (Working Folder)". -/
theorem claim5_deleted_and_modified_pairs (r : Resource) :
    (r.status = Status.DELETED → r.original = r.resourceUri →
      getLeftResource r = some (withHgQueryDot r.resourceUri) ∧
      getRightResource r = some (withHgQueryDot r.resourceUri) ∧
      getTitle r = "") ∧
    (r.status = Status.MODIFIED →
      getLeftResource r = some (withHgQueryDot r.original) ∧
      getRightResource r = some r.resourceUri ∧
      getTitle r = basename r.resourceUri.fsPath ++ " (Working Folder)") := by
  obtain ⟨u, o, st⟩ := r
  constructor
  · intro hst ho
    simp only at hst ho
    subst hst; subst ho
    simp [getLeftResource, getRightResource, getTitle]
  · intro hst
    simp only at hst
    subst hst
    simp [getLeftResource, getRightResource, getTitle]

/-- Witness for C5 at concrete DELETED and MODIFIED resources. -/
theorem claim5_witness :
    (getLeftResource resDeleted = some (withHgQueryDot resDeleted.resourceUri) ∧
     getRightResource resDeleted = some (withHgQueryDot resDeleted.resourceUri) ∧
     getTitle resDeleted = "") ∧
    (getLeftResource resModified = some (withHgQueryDot resModified.original) ∧
     getRightResource resModified = some resModified.resourceUri ∧
     getTitle resModified = basename resModified.resourceUri.fsPath ++ " (Working Folder)") :=
  ⟨(claim5_deleted_and_modified_pairs resDeleted).1 rfl rfl,
   (claim5_deleted_and_modified_pairs resModified).2 rfl⟩

/-- C6: opening a resource with no right reference reports only a diagnostic
failure and opens no view; with no left reference it opens a single pane of
the right reference; with both it opens a two-pane diff titled by the title
rule. -/
theorem claim6_open_resource_behavior (r : Resource) :
    (getRightResource r = none ∧ openResourceEffects r = [Effect.consoleError] ∧
      viewCount (openResourceEffects r) = 0) ∨
    (∃ right, getRightResource r = some right ∧ getLeftResource r = none ∧
      openResourceEffects r = [Effect.openView right]) ∨
    (∃ left right, getLeftResource r = some left ∧ getRightResource r = some right ∧
      openResourceEffects r = [Effect.diffView left right (getTitle r)]) := by
  obtain ⟨u, o, st⟩ := r
  cases st <;>
    simp [openResourceEffects, getLeftResource, getRightResource, viewCount]

/-- Constant holding the localized guard notice of `createCommand`. -/
def disabledNotice : String :=
  "Hg is either disabled or not supported in this workspace"

/-- C3: dispatching a registered action that requires a model
(`skipModelCheck = false`) while no model is bound yields exactly the one
informational notice — whatever the handler would have done — so the handler
is never invoked and no telemetry event is emitted. -/
theorem claim3_guard_shortcircuit (c : RegisteredCommand) (_hc : c ∈ Commands)
    (hreq : c.skipModelCheck = false)
    (handler : List Effect × Option HgError) (userOpensLog : Bool) :
    createCommand c.skipModelCheck c.commandId false handler userOpensLog
      = Except.ok [Effect.infoMessage disabledNotice] ∧
    telemetryCount [Effect.infoMessage disabledNotice] = 0 := by
  rw [hreq]
  exact ⟨rfl, rfl⟩

/-- Witness for C3 at the registered `hg.refresh` action with an arbitrary
failing handler. -/
theorem claim3_witness :
    createCommand (RegisteredCommand.mk ("hg.refresh") false).skipModelCheck
        (RegisteredCommand.mk ("hg.refresh") false).commandId false
        ([Effect.outputShown], some ⟨none, "boom", "", "Error"⟩) true
      = Except.ok [Effect.infoMessage disabledNotice] ∧
    telemetryCount [Effect.infoMessage disabledNotice] = 0 :=
  claim3_guard_shortcircuit (RegisteredCommand.mk ("hg.refresh") false) (by decide) rfl
    ([Effect.outputShown], some ⟨none, "boom", "", "Error"⟩) true

/-- C9: the promise returned by the dispatch wrapper always resolves
successfully, for every guard state, handler outcome and failure; nothing
propagates to the host. -/
theorem claim9_dispatch_always_resolves (skipModelCheck : Bool) (commandId : String)
    (modelBound : Bool) (handler : List Effect × Option HgError) (userOpensLog : Bool) :
    (createCommand skipModelCheck commandId modelBound handler userOpensLog).isOk = true := by
  unfold createCommand
  split <;> rfl

/-- Helper for C1: the catch handler's classifier never produces an empty
message — the default branch falls back to the non-empty generic text. -/
theorem commandErrorMessage_ne_empty (e : HgError) : commandErrorMessage e ≠ "" := by
  unfold commandErrorMessage
  split
  · decide
  · split
    · intro hcontra
      have hlen := congrArg String.length hcontra
      rw [String.length_append] at hlen
      simp at hlen
      exact absurd hlen.1 (by decide)
    · decide

/-- Sample failure carrying only whitespace diagnostic text: no machine code,
empty `message`, whitespace `stderr`. -/
def whitespaceError : HgError := ⟨none, " ", "", "Error"⟩

/-- C1 counterexample: a handler failure carrying only whitespace diagnostic
text does not take the silent path — the dispatch error handler shows one
dialog and writes no diagnostic log entry, so the claimed (0 dialogs, 1 log)
outcome is false. -/
theorem claim1_counterexample :
    ¬ (errorDialogCount (handleCommandError whitespaceError false) = 0 ∧
       consoleErrorCount (handleCommandError whitespaceError false) = 1) := by
  decide

/-- C1 amended: for every handler failure carrying only empty or whitespace
diagnostic text (no machine code, no message), the dispatch error handler
shows exactly one user-facing dialog and writes zero diagnostic log entries;
the silent-failure branch is unreachable because the classifier always
produces a non-empty message. -/
theorem claim1_amended_one_dialog_no_log (e : HgError) (userOpensLog : Bool)
    (_hcode : e.hgErrorCode = none) (_hmsg : e.message = "")
    (_hws : e.stderr.toList.all isJsWs = true) :
    errorDialogCount (handleCommandError e userOpensLog) = 1 ∧
    consoleErrorCount (handleCommandError e userOpensLog) = 0 := by
  have hne : ¬ (commandErrorMessage e = "") := commandErrorMessage_ne_empty e
  unfold handleCommandError
  rw [if_neg hne]
  cases userOpensLog <;> simp [errorDialogCount, consoleErrorCount]

/-- Witness for C1's amended statement at the concrete whitespace failure. -/
theorem claim1_witness :
    errorDialogCount (handleCommandError whitespaceError false) = 1 ∧
    consoleErrorCount (handleCommandError whitespaceError false) = 0 :=
  claim1_amended_one_dialog_no_log whitespaceError false rfl rfl (by decide)

/-- C7: smart commit with an empty working directory group and an empty
staging group never calls the engine's commit operation, shows the
informational no-changes notice, and returns false — for every option set and
message. -/
theorem claim7_no_changes_aborts (m : ModelState) (opts0 : Option CommitOptions)
    (commitMessage : String)
    (hwd : m.workingDirectoryGroup = []) (_hst : m.stagingGroup = []) :
    smartCommit m opts0 commitMessage
      = ([Effect.infoMessage ("There are no changes to commit.")], false) ∧
    engineCommitCount (smartCommit m opts0 commitMessage).1 = 0 := by
  have h : smartCommit m opts0 commitMessage
      = ([Effect.infoMessage ("There are no changes to commit.")], false) := by
    unfold smartCommit
    rw [hwd]
    simp
  exact ⟨h, by rw [h]; rfl⟩

/-- Witness for C7 on the empty model with no explicit options. -/
theorem claim7_witness :
    smartCommit (ModelState.mk [] []) none ("a message")
      = ([Effect.infoMessage ("There are no changes to commit.")], false) ∧
    engineCommitCount (smartCommit (ModelState.mk [] []) none ("a message")).1 = 0 :=
  claim7_no_changes_aborts (ModelState.mk [] []) none ("a message") rfl rfl

/-- Model state with no staged change and one working-directory change: the
scenario on which C2's claimed default scope disagrees with the code. -/
def wdOnlyModel : ModelState := ⟨[resModified], []⟩

/-- C2 evaluation at the failing input: with no explicit options, no staged
change, and one working-directory change, the code derives the default scope
from the working-directory group and commits with `all = false` ("staged
only"), while the claim requires "all changes" whenever no staged changes
exist.  The duplicated working-directory test is the code's own; the inline
comment above it reads "or no staged changes and not all", documenting the
staged-group intent the spec describes. -/
theorem claim2_default_scope_eval :
    wdOnlyModel.stagingGroup.length = 0 ∧
    smartCommit wdOnlyModel none ("msg") = ([Effect.engineCommit ("msg") false], true) := by
  decide

/-- C8: after `commitWithAnyInput`, the pending input buffer is refreshed
from the engine's commit template exactly when the message came from the
non-empty buffer and the commit succeeded; when the buffer was empty (message
via interactive prompt) the buffer is left unchanged. -/
theorem claim8_template_refresh (m : ModelState) (inputBoxValue : String)
    (promptResult : Option String) (commitTemplate : String) (opts0 : Option CommitOptions) :
    (inputBoxValue ≠ "" →
      (smartCommit m opts0 (resolvedCommitMessage inputBoxValue promptResult)).2 = true →
      (commitWithAnyInput m inputBoxValue promptResult commitTemplate opts0).2.2
        = commitTemplate) ∧
    (inputBoxValue = "" →
      (commitWithAnyInput m inputBoxValue promptResult commitTemplate opts0).2.2
        = inputBoxValue) := by
  constructor
  · intro h1 h2
    unfold commitWithAnyInput
    rw [if_pos ⟨h1, h2⟩]
  · intro h1
    unfold commitWithAnyInput
    rw [if_neg]
    intro hcontra
    exact absurd h1 hcontra.1

/-- Model state with one working-directory change, used by C8's witness. -/
def wdModelForCommit : ModelState := ⟨[resModified], []⟩

/-- Witness for C8: a non-empty buffer message with a successful commit ends
with the template in the buffer; an empty buffer stays empty even though the
prompt supplied a message. -/
theorem claim8_witness :
    (commitWithAnyInput wdModelForCommit ("msg") none ("TPL") none).2.2 = "TPL" ∧
    (commitWithAnyInput wdModelForCommit ("") (some ("typed")) ("TPL") none).2.2 = "" :=
  ⟨(claim8_template_refresh wdModelForCommit ("msg") none ("TPL") none).1
      (by decide) (by decide),
   (claim8_template_refresh wdModelForCommit ("") (some ("typed")) ("TPL") none).2 rfl⟩

/-- Helper: an if-then-else of options with defined branches is defined. -/
theorem isSome_ite {p : Prop} [Decidable p] {x y : Option Nat}
    (hx : x.isSome = true) (hy : y.isSome = true) : (if p then x else y).isSome = true := by
  by_cases hp : p
  · rw [if_pos hp]; exact hx
  · rw [if_neg hp]; exact hy

/-- Helper for C10: when the head character is whitespace, the first twelve
alternatives already match (at worst via the `\s` alternative). -/
theorem branchAlt12_isSome_of_ws (a : Bool) (c : Char) (cs : List Char)
    (hws : isJsWs c = true) : (branchAlt12 a (c :: cs)).isSome = true := by
  unfold branchAlt12
  have h : ((c :: cs).head?.map isJsWs).getD false = true := hws
  rw [if_pos h]
  repeat first | rfl | apply isSome_ite

/-- Helper for C10: on a non-empty input position the source's matcher and
the claim's matcher agree — the extra `^\s*$` alternative is shadowed by the
`\s` alternative whenever it could match a non-empty remainder. -/
theorem branchMatchAt_cons (a : Bool) (c : Char) (cs : List Char) :
    branchMatchAt a (c :: cs) = claimMatchAt a (c :: cs) := by
  unfold branchMatchAt claimMatchAt
  cases h12 : branchAlt12 a (c :: cs) with
  | some n => rfl
  | none =>
    have hws : isJsWs c = false := by
      cases hc : isJsWs c
      · rfl
      · have := branchAlt12_isSome_of_ws a c cs hc
        rw [h12] at this
        exact absurd this (by simp)
    have hline : branchAltWsLine a (c :: cs) = none := by
      unfold branchAltWsLine
      rw [if_neg]
      intro hcontra
      have := (Bool.and_eq_true _ _).mp hcontra
      have hall := this.2
      rw [List.all_cons] at hall
      have := (Bool.and_eq_true _ _).mp hall
      rw [hws] at this
      exact absurd this.1 (by simp)
    simp [Option.orElse, hline]

/-- Helper for C10: away from position 0 (and at position 0 of a non-empty
input) the two global replacements agree, step by step. -/
theorem replaceLoop_congr (fuel : Nat) :
    ∀ (a : Bool) (l : List Char), (a = true → l ≠ []) →
      replaceLoop branchMatchAt fuel a l = replaceLoop claimMatchAt fuel a l := by
  induction fuel with
  | zero => intro a l _; rfl
  | succ n ih =>
    intro a l h
    cases l with
    | nil =>
      have ha : a = false := by
        cases a
        · rfl
        · exact absurd rfl (h rfl)
      subst ha
      have hb : branchMatchAt false [] = none := by decide
      have hc : claimMatchAt false [] = none := by decide
      simp [replaceLoop, hb, hc]
    | cons c cs =>
      have hm := branchMatchAt_cons a c cs
      simp only [replaceLoop, hm]
      cases hval : claimMatchAt a (c :: cs) with
      | some n2 =>
        simp only []
        have := ih false ((c :: cs).drop n2) (by simp)
        rw [this]
      | none =>
        simp only []
        have := ih false cs (by simp)
        rw [this]

/-- Helper for C10: on every non-empty input the source sanitizer and the
claim-level sanitizer coincide. -/
theorem sanitizeBranchName_eq_claim (s : String) (hs : s ≠ "") :
    sanitizeBranchName s = claimSanitizeBranchName s := by
  unfold sanitizeBranchName claimSanitizeBranchName
  congr 1
  apply replaceLoop_congr
  intro _ hnil
  apply hs
  cases s with
  | mk data =>
    have : data = [] := hnil
    rw [this]

/-- C10: the branch command makes no engine call on a cancelled or empty
input, and otherwise calls the engine's branch operation with the input in
which every occurrence of the claim's forbidden patterns has been replaced
by "-". -/
theorem claim10_branch_sanitization :
    branch none = [] ∧ branch (some ("")) = [] ∧
    ∀ s : String, s ≠ "" →
      branch (some s) = [Effect.engineBranch (claimSanitizeBranchName s)] := by
  refine ⟨rfl, rfl, ?_⟩
  intro s hs
  have hb : branch (some s)
      = if s = "" then [] else [Effect.engineBranch (sanitizeBranchName s)] := rfl
  rw [hb, if_neg hs, sanitizeBranchName_eq_claim s hs]

/-- Witness for C10 on a name exercising slash, `.lock/`, `~` and whitespace
replacements. -/
theorem claim10_witness :
    branch (some ("feature/x.lock/y~z b.")) = [Effect.engineBranch ("feature/x-y-z-b-")] := by
  have h := claim10_branch_sanitization.2.2 ("feature/x.lock/y~z b.") (by decide)
  rw [h]
  decide

end VscodeHg
